import Mathlib

/-!
Shallow embedding of the P2P_VideoStream core (src/Server/tracker.py and
src/Server/peer.py) in Lean 4, together with theorems settling the frozen
claims about the tracker's registry/index operations, the peer's download
and discovery client, and the video-id digest.

Python dicts are modelled as association lists with insertion-order
semantics: updating an existing key keeps its position, inserting a new key
appends at the end (Python 3.7+ dict behaviour). Timestamps are Nat.
-/

set_option maxRecDepth 10000

namespace P2P

/-- Association-list model of a Python dict: `dictInsert k v d` is
`d[k] = v` (update in place if `k` present, else append at the end). -/
def dictInsert {κ α : Type} [DecidableEq κ] (k : κ) (v : α) :
    List (κ × α) → List (κ × α)
  | [] => [(k, v)]
  | (k', v') :: rest =>
      if k = k' then (k, v) :: rest else (k', v') :: dictInsert k v rest

/-- `k in d` for a Python dict. -/
def dictContains {κ α : Type} [DecidableEq κ] (k : κ) :
    List (κ × α) → Bool
  | [] => false
  | (k', _) :: rest => if k = k' then true else dictContains k rest

/-- `d.get(k)` / `d[k]` for a Python dict. -/
def dictLookup {κ α : Type} [DecidableEq κ] (k : κ) :
    List (κ × α) → Option α
  | [] => none
  | (k', v') :: rest => if k = k' then some v' else dictLookup k rest

/-- `del d[k]` for a Python dict (no-op when `k` is absent; the sources
only delete keys known to be present). -/
def dictErase {κ α : Type} [DecidableEq κ] (k : κ) :
    List (κ × α) → List (κ × α)
  | [] => []
  | (k', v') :: rest =>
      if k = k' then rest else (k', v') :: dictErase k rest

/-- `list(d.keys())`. -/
def dictKeys {κ α : Type} (d : List (κ × α)) : List κ := d.map Prod.fst

/-- `lst.remove(x)`: removes the first occurrence of `x`. -/
def removeFirst {α : Type} [DecidableEq α] (x : α) : List α → List α
  | [] => []
  | y :: ys => if y = x then ys else y :: removeFirst x ys

/-! ## Tracker data model (src/Server/tracker.py)

`peer_registry : {peer_id: (host, port, last_seen)}` and
`video_index : {video_id: [peer_ids]}`. -/

/-- A registry value: `(host, port, last_seen)`. -/
abbrev PeerInfo := String × Nat × Nat

/-- The tracker's mutable state: `self.peer_registry` and
`self.video_index` of `TrackerServer`. -/
structure TrackerState where
  peer_registry : List (String × PeerInfo)
  video_index : List (String × List String)
deriving DecidableEq, Repr

/-- The tracker's initial state (both dicts empty, `TrackerServer.__init__`). -/
def initState : TrackerState := ⟨[], []⟩

/-- Response of `_register_peer`: `{status, message, peer_count}` on
success, `{status: error, message}` on failure. -/
inductive RegResp
  | success (message : String) (peer_count : Nat)
  | error (message : String)
deriving DecidableEq, Repr

/-- Response carrying only `status` and `message` (`_unregister_peer`,
`_announce_video`). -/
inductive SimpleResp
  | success (message : String)
  | error (message : String)
deriving DecidableEq, Repr

/-- Response of `_update_heartbeat`: `{status: success}` or
`{status: error, message}`. -/
inductive HbResp
  | success
  | error (message : String)
deriving DecidableEq, Repr

/-- One element of a `peers` response list: `{peer_id, host, port}`. -/
structure PeerEntry where
  peer_id : String
  host : String
  port : Nat
deriving DecidableEq, Repr

/-- Response of `_find_video` (status is always success):
`{status, peers, count}`. -/
structure FindResp where
  peers : List PeerEntry
  count : Nat
deriving DecidableEq, Repr

/-- `TrackerServer._register_peer`. Python's
`if not all([peer_id, peer_host, peer_port])` rejects falsy fields: empty
strings and port 0. Otherwise upserts the registry entry and reports
`peer_count = len(self.peer_registry)` after the upsert. -/
def register_peer (st : TrackerState) (peer_id peer_host : String)
    (peer_port now : Nat) : TrackerState × RegResp :=
  if peer_id = "" ∨ peer_host = "" ∨ peer_port = 0 then
    (st, RegResp.error "Missing peer information")
  else
    let reg := dictInsert peer_id (peer_host, peer_port, now) st.peer_registry
    ({ st with peer_registry := reg },
     RegResp.success "Peer registered successfully" reg.length)

/-- One pass of the index-cleanup loop body for a single entry:
`if peer_id in lst: lst.remove(peer_id)`. -/
def pruneEntry (peer_id : String) (ps : List String) : List String :=
  if peer_id ∈ ps then removeFirst peer_id ps else ps

/-- The index-cleanup loop shared by `_unregister_peer` and
`_cleanup_inactive_peers`: for every video, remove `peer_id` from its list
(first occurrence) and delete the entry if its list is (or was) empty. -/
def pruneIndex (peer_id : String) :
    List (String × List String) → List (String × List String)
  | [] => []
  | (v, ps) :: rest =>
      let ps' := pruneEntry peer_id ps
      if ps' = [] then pruneIndex peer_id rest
      else (v, ps') :: pruneIndex peer_id rest

/-- The registered-peer branch of `_unregister_peer` and the per-peer body
of the sweep: delete the registry entry and run the index cleanup. -/
def remove_peer_full (st : TrackerState) (peer_id : String) : TrackerState :=
  { peer_registry := dictErase peer_id st.peer_registry
    video_index := pruneIndex peer_id st.video_index }

/-- `TrackerServer._unregister_peer`: removes the peer and prunes the index
when registered, does nothing otherwise; always answers success. -/
def unregister_peer (st : TrackerState) (peer_id : String) :
    TrackerState × SimpleResp :=
  if dictContains peer_id st.peer_registry then
    (remove_peer_full st peer_id, SimpleResp.success "Peer unregistered")
  else
    (st, SimpleResp.success "Peer unregistered")

/-- `TrackerServer._get_all_peers`: snapshot of the registry. -/
def get_all_peers (st : TrackerState) : FindResp :=
  let peers := st.peer_registry.map
    (fun kv => PeerEntry.mk kv.1 kv.2.1 kv.2.2.1)
  ⟨peers, peers.length⟩

/-- `TrackerServer._announce_video`: rejects falsy fields, otherwise
creates the index entry if absent and appends `peer_id` if not already
listed. Registration of the peer is NOT checked. -/
def announce_video (st : TrackerState) (peer_id video_id : String) :
    TrackerState × SimpleResp :=
  if peer_id = "" ∨ video_id = "" then
    (st, SimpleResp.error "Missing information")
  else
    let cur := (dictLookup video_id st.video_index).getD []
    let ps := if peer_id ∈ cur then cur else cur ++ [peer_id]
    ({ st with video_index := dictInsert video_id ps st.video_index },
     SimpleResp.success "Video announced")

/-- `TrackerServer._find_video`: resolves each indexed peer_id against the
live registry, silently skipping ids that are not registered. -/
def find_video (st : TrackerState) (video_id : String) : FindResp :=
  let peer_ids := (dictLookup video_id st.video_index).getD []
  let peers := peer_ids.filterMap
    (fun pid => (dictLookup pid st.peer_registry).map
      (fun hp => PeerEntry.mk pid hp.1 hp.2.1))
  ⟨peers, peers.length⟩

/-- `TrackerServer._update_heartbeat`: refresh `last_seen`, keeping host
and port, when registered; explicit error otherwise. -/
def update_heartbeat (st : TrackerState) (peer_id : String) (now : Nat) :
    TrackerState × HbResp :=
  match dictLookup peer_id st.peer_registry with
  | some hp =>
      ({ st with peer_registry :=
          dictInsert peer_id (hp.1, hp.2.1, now) st.peer_registry },
       HbResp.success)
  | none => (st, HbResp.error "Peer not registered")

/-- The peer_ids collected by one sweep iteration of
`_cleanup_inactive_peers`: those with `current_time - last_seen > 300`. -/
def inactivePeers (st : TrackerState) (current_time : Nat) : List String :=
  (st.peer_registry.filter
    (fun kv => 300 < current_time - kv.2.2.2)).map Prod.fst

/-- One sweep iteration of `TrackerServer._cleanup_inactive_peers`:
collect the inactive peers, then delete each from the registry and prune
the index. -/
def cleanup_inactive_peers (st : TrackerState) (current_time : Nat) :
    TrackerState :=
  (inactivePeers st current_time).foldl remove_peer_full st

/-! ## Request sequences (for reachable-state claims) -/

/-- The tracker requests that mutate state (GET_PEERS and FIND_VIDEO are
read-only and are omitted from state traces); `sweep` is one iteration of
the cleanup thread. -/
inductive Request
  | register (peer_id host : String) (port now : Nat)
  | unregister (peer_id : String)
  | announce (peer_id video_id : String)
  | heartbeat (peer_id : String) (now : Nat)
  | sweep (now : Nat)
deriving DecidableEq, Repr

/-- State effect of one request. -/
def applyRequest (st : TrackerState) : Request → TrackerState
  | .register p h port now => (register_peer st p h port now).1
  | .unregister p => (unregister_peer st p).1
  | .announce p v => (announce_video st p v).1
  | .heartbeat p now => (update_heartbeat st p now).1
  | .sweep now => cleanup_inactive_peers st now

/-- The state after a sequence of requests from the empty initial state. -/
def runRequests (rs : List Request) : TrackerState :=
  rs.foldl applyRequest initState

/-- peer_ids that appear as the subject of a REGISTER request in a trace. -/
def registeredIds (rs : List Request) : List String :=
  rs.filterMap (fun r => match r with
    | .register p _ _ _ => some p
    | _ => none)

/-- peer_ids that appear as the subject of an ANNOUNCE_VIDEO request. -/
def announcedIds (rs : List Request) : List String :=
  rs.filterMap (fun r => match r with
    | .announce p _ => some p
    | _ => none)

/-! ## Peer data model (src/Server/peer.py) -/

/-- One value of `Peer.video_library`: the dict
`{id, name, description, size, path, added_time}`. -/
structure VideoInfo where
  id : String
  name : String
  description : String
  size : Nat
  path : String
  added_time : Nat
deriving DecidableEq, Repr

/-- One element of a LIST_VIDEOS response (`Peer._get_video_list` keeps
`id`, `name`, `description`, `size`). -/
structure VideoSummary where
  id : String
  name : String
  description : String
  size : Nat
deriving DecidableEq, Repr

/-- The header `_send_video_file` answers a DOWNLOAD_VIDEO request with:
`{status: not_found}` or `{status: success, size, name}`. -/
inductive DownloadHeader
  | notFound
  | success (size : Nat) (name : String)
deriving DecidableEq, Repr

/-- `Peer._send_video_file` (data view): given the library and the bytes
of the stored file, produce the response header and the bytes streamed
after the requester's acknowledgment. On a missing id, only
`{status: not_found}` is sent and nothing is streamed. -/
def send_video_file (library : List (String × VideoInfo))
    (video_id : String) (fileBytes : List Nat) :
    DownloadHeader × List Nat :=
  match dictLookup video_id library with
  | none => (DownloadHeader.notFound, [])
  | some info => (DownloadHeader.success info.size info.name, fileBytes)

/-- The receive loop of `Peer.download_video`:
`while received < file_size: chunk = recv(8192); if not chunk: break; ...`.
The network is modelled as the list of successive `recv` results; an
exhausted list (or an empty chunk) is a closed connection. Returns the
bytes written to the destination file. -/
def recv_loop (chunks : List (List Nat)) (file_size received : Nat) :
    List Nat :=
  match chunks with
  | [] => []
  | c :: rest =>
      if received < file_size then
        if c = [] then []
        else c ++ recv_loop rest file_size (received + c.length)
      else []

/-- `Peer.download_video` (data view), from the point where the response
header has been parsed: on a non-success status it aborts with `False`
having written nothing; on success it writes whatever the receive loop
yields, records the video in the local library with the DECLARED size, and
returns `True` — whether or not the received bytes reached the declared
size. Returns (result, bytes written to save_path, new library). -/
def download_video (library : List (String × VideoInfo))
    (video_id : String) (header : DownloadHeader)
    (chunks : List (List Nat)) (now : Nat) (save_path : String) :
    Bool × List Nat × List (String × VideoInfo) :=
  match header with
  | DownloadHeader.notFound => (false, [], library)
  | DownloadHeader.success file_size name =>
      let written := recv_loop chunks file_size 0
      (true, written,
       dictInsert video_id
         ⟨video_id, name, "", file_size, save_path, now⟩ library)

/-! ## Video id digest (`Peer._generate_video_id`)

The source hashes the first 1 MiB of the file with `hashlib.md5` and keeps
the first 16 hex characters. MD5 (RFC 1321) is modelled executably below;
bytes are Nats < 256, 32-bit words are Nats reduced mod 2^32. -/

/-- 32-bit left rotation. -/
def rotl32 (x s : Nat) : Nat :=
  ((x <<< s) % 4294967296) ||| (x >>> (32 - s))

/-- The MD5 sine-derived constant table T[1..64] of RFC 1321. -/
def md5K : List Nat :=
  [0xd76aa478, 0xe8c7b756, 0x242070db, 0xc1bdceee,
   0xf57c0faf, 0x4787c62a, 0xa8304613, 0xfd469501,
   0x698098d8, 0x8b44f7af, 0xffff5bb1, 0x895cd7be,
   0x6b901122, 0xfd987193, 0xa679438e, 0x49b40821,
   0xf61e2562, 0xc040b340, 0x265e5a51, 0xe9b6c7aa,
   0xd62f105d, 0x02441453, 0xd8a1e681, 0xe7d3fbc8,
   0x21e1cde6, 0xc33707d6, 0xf4d50d87, 0x455a14ed,
   0xa9e3e905, 0xfcefa3f8, 0x676f02d9, 0x8d2a4c8a,
   0xfffa3942, 0x8771f681, 0x6d9d6122, 0xfde5380c,
   0xa4beea44, 0x4bdecfa9, 0xf6bb4b60, 0xbebfbc70,
   0x289b7ec6, 0xeaa127fa, 0xd4ef3085, 0x04881d05,
   0xd9d4d039, 0xe6db99e5, 0x1fa27cf8, 0xc4ac5665,
   0xf4292244, 0x432aff97, 0xab9423a7, 0xfc93a039,
   0x655b59c3, 0x8f0ccc92, 0xffeff47d, 0x85845dd1,
   0x6fa87e4f, 0xfe2ce6e0, 0xa3014314, 0x4e0811a1,
   0xf7537e82, 0xbd3af235, 0x2ad7d2bb, 0xeb86d391]

/-- The MD5 per-round shift amounts. -/
def md5S : List Nat :=
  [7, 12, 17, 22, 7, 12, 17, 22, 7, 12, 17, 22, 7, 12, 17, 22,
   5, 9, 14, 20, 5, 9, 14, 20, 5, 9, 14, 20, 5, 9, 14, 20,
   4, 11, 16, 23, 4, 11, 16, 23, 4, 11, 16, 23, 4, 11, 16, 23,
   6, 10, 15, 21, 6, 10, 15, 21, 6, 10, 15, 21, 6, 10, 15, 21]

/-- `n`-byte little-endian encoding of `x`. -/
def toLE : Nat → Nat → List Nat
  | 0, _ => []
  | n + 1, x => (x % 256) :: toLE n (x / 256)

/-- Group a byte list into little-endian 32-bit words. -/
def bytesToWords : List Nat → List Nat
  | b0 :: b1 :: b2 :: b3 :: rest =>
      (b0 + 256 * b1 + 65536 * b2 + 16777216 * b3) :: bytesToWords rest
  | _ => []

/-- Split a byte list into 64-byte blocks (fuel-based structural
recursion; each step consumes 64 bytes but only one unit of fuel, so fuel
equal to the list's length always suffices). -/
def chunks64F : Nat → List Nat → List (List Nat)
  | 0, _ => []
  | _, [] => []
  | fuel + 1, x :: rest => (x :: rest.take 63) :: chunks64F fuel (rest.drop 63)

/-- Split a byte list into 64-byte blocks. -/
def chunks64 (l : List Nat) : List (List Nat) := chunks64F l.length l

/-- MD5 padding: append `0x80`, zero bytes up to 56 mod 64, then the
64-bit little-endian bit length. -/
def md5pad (msg : List Nat) : List Nat :=
  let l := msg.length
  let zeros := (119 - l % 64) % 64
  msg ++ 128 :: (List.replicate zeros 0 ++ toLE 8 ((l * 8) % 18446744073709551616))

/-- One of the 64 MD5 rounds on state `(A, B, C, D)` over the message
words `M` of the current block. -/
def md5round (M : List Nat) (st : Nat × Nat × Nat × Nat) (i : Nat) :
    Nat × Nat × Nat × Nat :=
  let A := st.1
  let B := st.2.1
  let C := st.2.2.1
  let D := st.2.2.2
  let f :=
    if i < 16 then (B &&& C) ||| ((0xffffffff ^^^ B) &&& D)
    else if i < 32 then (D &&& B) ||| ((0xffffffff ^^^ D) &&& C)
    else if i < 48 then B ^^^ C ^^^ D
    else C ^^^ (B ||| (0xffffffff ^^^ D))
  let g :=
    if i < 16 then i
    else if i < 32 then (5 * i + 1) % 16
    else if i < 48 then (3 * i + 5) % 16
    else (7 * i) % 16
  let sum := (A + f + md5K.getD i 0 + M.getD g 0) % 4294967296
  let B' := (B + rotl32 sum (md5S.getD i 0)) % 4294967296
  (D, B', B, C)

/-- MD5 compression of one 64-byte block into the running state. -/
def md5block (st : Nat × Nat × Nat × Nat) (block : List Nat) :
    Nat × Nat × Nat × Nat :=
  let M := bytesToWords block
  let r := (List.range 64).foldl (md5round M) st
  ((st.1 + r.1) % 4294967296, (st.2.1 + r.2.1) % 4294967296,
   (st.2.2.1 + r.2.2.1) % 4294967296, (st.2.2.2 + r.2.2.2) % 4294967296)

/-- The 16 digest bytes of the MD5 of a byte list. -/
def md5bytes (msg : List Nat) : List Nat :=
  let d := (chunks64 (md5pad msg)).foldl md5block
    (0x67452301, 0xefcdab89, 0x98badcfe, 0x10325476)
  toLE 4 d.1 ++ toLE 4 d.2.1 ++ toLE 4 d.2.2.1 ++ toLE 4 d.2.2.2

/-- Lower-case hex digit. -/
def hexDigit (n : Nat) : Char :=
  if n < 10 then Char.ofNat (48 + n) else Char.ofNat (87 + n)

/-- The character sequence of `hashlib.md5(...).hexdigest()`. -/
def md5hexChars (msg : List Nat) : List Char :=
  (md5bytes msg).foldr
    (fun b acc => hexDigit (b / 16) :: hexDigit (b % 16) :: acc) []

/-- `hashlib.md5(...).hexdigest()`: the 32-character hex string. -/
def md5hex (msg : List Nat) : String :=
  String.mk (md5hexChars msg)

/-- `Peer._generate_video_id`: MD5 of the first 1 MiB of the file's bytes,
truncated to the first 16 hex characters (`hexdigest()[:16]`). -/
def generate_video_id (fileBytes : List Nat) : String :=
  String.mk ((md5hexChars (fileBytes.take (1024 * 1024))).take 16)

/-- The outcome of one LIST_VIDEOS exchange as seen by
`Peer.request_video_list`: either some connection/parse failure (the
`except` path) or a parsed response `{status, videos}`. -/
inductive ListOutcome
  | failure
  | response (status : String) (videos : List VideoSummary)
deriving DecidableEq, Repr

/-- `Peer.request_video_list` (data view): a failure or a non-success
status yields `[]`; a success yields the peer's video list. -/
def request_video_list (o : ListOutcome) : List VideoSummary :=
  match o with
  | ListOutcome.failure => []
  | ListOutcome.response status videos =>
      if status = "success" then videos else []

/-- One iteration of the `get_all_network_videos` loop:
`videos = request_video_list(...)`, then `if videos:` keeps the entry —
only a non-empty list is recorded. -/
def network_videos_step (net : String × Nat → ListOutcome)
    (acc : List ((String × Nat) × List VideoSummary))
    (addr : String × Nat) :
    List ((String × Nat) × List VideoSummary) :=
  let videos := request_video_list (net addr)
  if videos = [] then acc else dictInsert addr videos acc

/-- `Peer.get_all_network_videos`: iterate `known_peers`, query each, and
keep `network_videos[addr] = videos` only when `if videos:` is truthy.
`net` maps each address to the outcome of its exchange. -/
def get_all_network_videos (known_peers : List (String × Nat))
    (net : String × Nat → ListOutcome) :
    List ((String × Nat) × List VideoSummary) :=
  known_peers.foldl (network_videos_step net) []

/-! ## Association-list lemmas -/

section DictLemmas

variable {κ α : Type} [DecidableEq κ]

theorem mem_dictInsert_self (k : κ) (v : α) (d : List (κ × α)) :
    (k, v) ∈ dictInsert k v d := by
  induction d with
  | nil => simp [dictInsert]
  | cons kv rest ih =>
      obtain ⟨k', v'⟩ := kv
      by_cases h : k = k' <;> simp [dictInsert, h, ih]

theorem mem_of_mem_dictInsert {k : κ} {v : α} {d : List (κ × α)}
    {k' : κ} {v' : α} (h : (k', v') ∈ dictInsert k v d) :
    (k' = k ∧ v' = v) ∨ (k', v') ∈ d := by
  induction d with
  | nil => simpa [dictInsert] using h
  | cons kv rest ih =>
      obtain ⟨k₀, v₀⟩ := kv
      by_cases hk : k = k₀
      · simp only [dictInsert, if_pos hk, List.mem_cons] at h
        rcases h with h | h
        · exact Or.inl ⟨congrArg Prod.fst h, congrArg Prod.snd h⟩
        · exact Or.inr (List.mem_cons_of_mem _ h)
      · simp only [dictInsert, if_neg hk, List.mem_cons] at h
        rcases h with h | h
        · exact Or.inr (by simp [h])
        · rcases ih h with h' | h'
          · exact Or.inl h'
          · exact Or.inr (List.mem_cons_of_mem _ h')

theorem mem_dictInsert_of_ne {k : κ} {v : α} {d : List (κ × α)}
    {k' : κ} {v' : α} (hne : k' ≠ k) (h : (k', v') ∈ d) :
    (k', v') ∈ dictInsert k v d := by
  induction d with
  | nil => cases h
  | cons kv rest ih =>
      obtain ⟨k₀, v₀⟩ := kv
      by_cases hk : k = k₀
      · subst hk
        rcases List.mem_cons.mp h with h' | h'
        · exact absurd (congrArg Prod.fst h') hne
        · simp [dictInsert, List.mem_cons_of_mem, h']
      · rcases List.mem_cons.mp h with h' | h'
        · simp [dictInsert, hk, h']
        · simp [dictInsert, hk, List.mem_cons_of_mem, ih h']

theorem dictLookup_dictInsert_self (k : κ) (v : α) (d : List (κ × α)) :
    dictLookup k (dictInsert k v d) = some v := by
  induction d with
  | nil => simp [dictInsert, dictLookup]
  | cons kv rest ih =>
      obtain ⟨k₀, v₀⟩ := kv
      by_cases hk : k = k₀ <;> simp [dictInsert, dictLookup, hk, ih]

theorem dictLookup_dictInsert_ne {k k' : κ} (hne : k' ≠ k) (v : α)
    (d : List (κ × α)) :
    dictLookup k' (dictInsert k v d) = dictLookup k' d := by
  induction d with
  | nil => simp [dictInsert, dictLookup, hne]
  | cons kv rest ih =>
      obtain ⟨k₀, v₀⟩ := kv
      by_cases hk : k = k₀
      · subst hk
        simp [dictInsert, dictLookup, hne]
      · by_cases hk' : k' = k₀ <;> simp [dictInsert, dictLookup, hk, hk', ih]

theorem dictKeys_dictInsert_of_contains {k : κ} {d : List (κ × α)}
    (h : dictContains k d = true) (v : α) :
    dictKeys (dictInsert k v d) = dictKeys d := by
  induction d with
  | nil => simp [dictContains] at h
  | cons kv rest ih =>
      obtain ⟨k₀, v₀⟩ := kv
      by_cases hk : k = k₀
      · simp [dictInsert, dictKeys, hk]
      · simp only [dictContains, if_neg hk] at h
        have h' := ih h
        simp only [dictKeys] at h' ⊢
        simp [dictInsert, hk, h']

theorem length_dictInsert_of_contains {k : κ} {d : List (κ × α)}
    (h : dictContains k d = true) (v : α) :
    (dictInsert k v d).length = d.length := by
  induction d with
  | nil => simp [dictContains] at h
  | cons kv rest ih =>
      obtain ⟨k₀, v₀⟩ := kv
      by_cases hk : k = k₀
      · simp [dictInsert, hk]
      · simp only [dictContains, if_neg hk] at h
        simp [dictInsert, hk, ih h]

theorem mem_of_dictLookup_eq_some {k : κ} {v : α} {d : List (κ × α)}
    (h : dictLookup k d = some v) : (k, v) ∈ d := by
  induction d with
  | nil => simp [dictLookup] at h
  | cons kv rest ih =>
      obtain ⟨k₀, v₀⟩ := kv
      by_cases hk : k = k₀
      · simp only [dictLookup, if_pos hk] at h
        subst hk
        obtain rfl : v₀ = v := by injection h
        simp
      · simp only [dictLookup, if_neg hk] at h
        exact List.mem_cons_of_mem _ (ih h)

end DictLemmas

/-! ## Index-pruning lemmas and the reachable-state invariant -/

theorem removeFirst_sublist {α : Type} [DecidableEq α] (x : α)
    (l : List α) : List.Sublist (removeFirst x l) l := by
  induction l with
  | nil => simp [removeFirst]
  | cons y ys ih =>
      by_cases h : y = x
      · simp only [removeFirst, if_pos h]
        exact List.sublist_cons_self y ys
      · simpa [removeFirst, h] using ih.cons₂ y

theorem not_mem_removeFirst_of_nodup {α : Type} [DecidableEq α] {x : α}
    {l : List α} (hnd : l.Nodup) : x ∉ removeFirst x l := by
  induction l with
  | nil => simp [removeFirst]
  | cons y ys ih =>
      rcases List.nodup_cons.mp hnd with ⟨hy, hys⟩
      by_cases h : y = x
      · subst h
        simpa [removeFirst] using hy
      · simp only [removeFirst, if_neg h, List.mem_cons]
        rintro (rfl | hx)
        · exact h rfl
        · exact ih hys hx

theorem pruneEntry_sublist (p : String) (ps : List String) :
    List.Sublist (pruneEntry p ps) ps := by
  unfold pruneEntry
  by_cases h : p ∈ ps
  · simpa [h] using removeFirst_sublist p ps
  · simp [h]

theorem not_mem_pruneEntry_of_nodup {p : String} {ps : List String}
    (hnd : ps.Nodup) : p ∉ pruneEntry p ps := by
  unfold pruneEntry
  by_cases h : p ∈ ps
  · simpa [h] using not_mem_removeFirst_of_nodup hnd
  · simp [h]

theorem mem_pruneIndex {p : String} {idx : List (String × List String)}
    {e : String × List String} (h : e ∈ pruneIndex p idx) :
    (∃ ps, (e.1, ps) ∈ idx ∧ e.2 = pruneEntry p ps) ∧ e.2 ≠ [] := by
  induction idx with
  | nil => simp [pruneIndex] at h
  | cons kv rest ih =>
      obtain ⟨v, ps⟩ := kv
      by_cases hemp : pruneEntry p ps = []
      · simp only [pruneIndex, hemp, if_pos rfl] at h
        rcases ih h with ⟨⟨ps', hmem, heq⟩, hne⟩
        exact ⟨⟨ps', List.mem_cons_of_mem _ hmem, heq⟩, hne⟩
      · simp only [pruneIndex, if_neg hemp, List.mem_cons] at h
        rcases h with rfl | h
        · exact ⟨⟨ps, by simp, rfl⟩, hemp⟩
        · rcases ih h with ⟨⟨ps', hmem, heq⟩, hne⟩
          exact ⟨⟨ps', List.mem_cons_of_mem _ hmem, heq⟩, hne⟩

/-- Well-formedness of the video index, maintained by every tracker
operation: every entry's peer list has no duplicates and is non-empty. -/
def IndexWF (idx : List (String × List String)) : Prop :=
  ∀ e ∈ idx, e.2.Nodup ∧ e.2 ≠ []

theorem indexWF_pruneIndex {p : String} {idx : List (String × List String)}
    (h : IndexWF idx) : IndexWF (pruneIndex p idx) := by
  intro e he
  rcases mem_pruneIndex he with ⟨⟨ps, hmem, heq⟩, hne⟩
  refine ⟨?_, hne⟩
  rw [heq]
  exact (h _ hmem).1.sublist (pruneEntry_sublist p ps)

/-- The peer list produced by the announce branch keeps well-formedness. -/
theorem announce_newlist_wf {p : String} {cur : List String}
    (hnd : cur.Nodup) :
    (if p ∈ cur then cur else cur ++ [p]).Nodup ∧
    (if p ∈ cur then cur else cur ++ [p]) ≠ [] := by
  by_cases hp : p ∈ cur
  · refine ⟨by simpa [hp] using hnd, ?_⟩
    simp only [if_pos hp]
    intro hemp
    rw [hemp] at hp
    cases hp
  · constructor
    · simp only [if_neg hp]
      exact List.Nodup.append hnd (List.nodup_singleton p)
        (List.disjoint_singleton.mpr hp)
    · simp [hp]

theorem indexWF_announce {st : TrackerState} (h : IndexWF st.video_index)
    (p v : String) : IndexWF (announce_video st p v).1.video_index := by
  unfold announce_video
  by_cases hbad : p = "" ∨ v = ""
  · simpa [hbad] using h
  · simp only [if_neg hbad]
    intro e he
    rcases mem_of_mem_dictInsert he with ⟨h1, h2⟩ | hmem
    · rw [h2]
      apply announce_newlist_wf
      rcases hcur : dictLookup v st.video_index with _ | cur
      · simp
      · simpa using (h _ (mem_of_dictLookup_eq_some hcur)).1
    · exact h _ hmem

theorem indexWF_remove_peer_full {st : TrackerState}
    (h : IndexWF st.video_index) (p : String) :
    IndexWF (remove_peer_full st p).video_index :=
  indexWF_pruneIndex h

theorem indexWF_foldl_remove {l : List String} :
    ∀ {st : TrackerState}, IndexWF st.video_index →
      IndexWF (l.foldl remove_peer_full st).video_index := by
  induction l with
  | nil => intro st h; simpa using h
  | cons q rest ih =>
      intro st h
      exact ih (indexWF_remove_peer_full h q)

theorem indexWF_applyRequest {st : TrackerState}
    (h : IndexWF st.video_index) (r : Request) :
    IndexWF (applyRequest st r).video_index := by
  cases r with
  | register p hst port now =>
      unfold applyRequest register_peer
      by_cases hbad : p = "" ∨ hst = "" ∨ port = 0
      · simpa [hbad] using h
      · simpa [hbad] using h
  | unregister p =>
      unfold applyRequest unregister_peer
      by_cases hreg : dictContains p st.peer_registry = true
      · simpa [hreg, remove_peer_full] using
          @indexWF_pruneIndex p st.video_index h
      · simpa [hreg] using h
  | announce p v => exact indexWF_announce h p v
  | heartbeat p now =>
      unfold applyRequest update_heartbeat
      rcases hl : dictLookup p st.peer_registry with _ | hp
      · simpa [hl] using h
      · simpa [hl] using h
  | sweep now => exact indexWF_foldl_remove h

theorem not_mem_pruneIndex_self {p : String}
    {idx : List (String × List String)} (h : IndexWF idx) :
    ∀ e ∈ pruneIndex p idx, p ∉ e.2 ∧ e.2 ≠ [] := by
  intro e he
  rcases mem_pruneIndex he with ⟨⟨ps, hmem, heq⟩, hne⟩
  refine ⟨?_, hne⟩
  rw [heq]
  exact not_mem_pruneEntry_of_nodup (h _ hmem).1

theorem absent_pruneIndex {p q : String}
    {idx : List (String × List String)}
    (h : ∀ e ∈ idx, p ∉ e.2) :
    ∀ e ∈ pruneIndex q idx, p ∉ e.2 := by
  intro e he
  rcases mem_pruneIndex he with ⟨⟨ps, hmem, heq⟩, _⟩
  rw [heq]
  intro hmem'
  exact h _ hmem ((pruneEntry_sublist q ps).subset hmem')

theorem absent_foldl_remove {p : String} {l : List String} :
    ∀ {st : TrackerState}, (∀ e ∈ st.video_index, p ∉ e.2) →
      ∀ e ∈ (l.foldl remove_peer_full st).video_index, p ∉ e.2 := by
  induction l with
  | nil => intro st h; simpa using h
  | cons q rest ih =>
      intro st h
      exact ih (fun e he => absent_pruneIndex h e he)

/-- After folding `remove_peer_full` over a list containing `p`, starting
from a well-formed index, no entry mentions `p` and none is empty. -/
theorem removed_after_foldl_remove {p : String} {l : List String} :
    ∀ {st : TrackerState}, IndexWF st.video_index → p ∈ l →
      ∀ e ∈ (l.foldl remove_peer_full st).video_index, p ∉ e.2 ∧ e.2 ≠ [] := by
  induction l with
  | nil => intro st _ hp; cases hp
  | cons q rest ih =>
      intro st hwf hp e he
      rw [List.foldl_cons] at he
      by_cases hpq : p = q
      · subst hpq
        refine ⟨?_, (indexWF_foldl_remove (indexWF_remove_peer_full hwf p) _ he).2⟩
        refine absent_foldl_remove ?_ e he
        intro e' he'
        exact (not_mem_pruneIndex_self hwf e' he').1
      · rcases List.mem_cons.mp hp with h' | h'
        · exact absurd h' hpq
        · exact ih (indexWF_remove_peer_full hwf q) h' e he

theorem indexWF_runRequests (rs : List Request) :
    IndexWF (runRequests rs).video_index := by
  suffices hgen : ∀ st : TrackerState, IndexWF st.video_index →
      IndexWF (rs.foldl applyRequest st).video_index by
    apply hgen
    intro e he
    simp [initState] at he
  induction rs with
  | nil => intro st h; simpa using h
  | cons r rest ih =>
      intro st h
      exact ih _ (indexWF_applyRequest h r)

/-! ## Provenance of indexed peer ids -/

theorem indexSubset_pruneIndex {P : String → Prop} {q : String}
    {idx : List (String × List String)}
    (h : ∀ e ∈ idx, ∀ x ∈ e.2, P x) :
    ∀ e ∈ pruneIndex q idx, ∀ x ∈ e.2, P x := by
  intro e he x hx
  rcases mem_pruneIndex he with ⟨⟨ps, hmem, heq⟩, _⟩
  rw [heq] at hx
  exact h _ hmem x ((pruneEntry_sublist q ps).subset hx)

theorem indexSubset_foldl_remove {P : String → Prop} {l : List String} :
    ∀ {st : TrackerState}, (∀ e ∈ st.video_index, ∀ x ∈ e.2, P x) →
      ∀ e ∈ (l.foldl remove_peer_full st).video_index, ∀ x ∈ e.2, P x := by
  induction l with
  | nil => intro st h; simpa using h
  | cons q rest ih =>
      intro st h
      exact ih (fun e he => indexSubset_pruneIndex h e he)

theorem indexSubset_applyRequest {P : String → Prop} {st : TrackerState}
    (h : ∀ e ∈ st.video_index, ∀ x ∈ e.2, P x) (r : Request)
    (hr : ∀ p v, r = Request.announce p v → P p) :
    ∀ e ∈ (applyRequest st r).video_index, ∀ x ∈ e.2, P x := by
  cases r with
  | register p hst port now =>
      unfold applyRequest register_peer
      by_cases hbad : p = "" ∨ hst = "" ∨ port = 0
      · simpa [hbad] using h
      · simpa [hbad] using h
  | unregister p =>
      unfold applyRequest unregister_peer
      by_cases hreg : dictContains p st.peer_registry = true
      · simpa [hreg, remove_peer_full] using
          @indexSubset_pruneIndex P p st.video_index h
      · simpa [hreg] using h
  | announce p v =>
      have hP : P p := hr p v rfl
      unfold applyRequest announce_video
      by_cases hbad : p = "" ∨ v = ""
      · simpa [hbad] using h
      · simp only [if_neg hbad]
        intro e he x hx
        rcases mem_of_mem_dictInsert he with ⟨h1, h2⟩ | hmem
        · rw [h2] at hx
          have hcurP : ∀ y ∈ (dictLookup v st.video_index).getD [], P y := by
            rcases hcur : dictLookup v st.video_index with _ | cur
            · simp
            · simpa using h _ (mem_of_dictLookup_eq_some hcur)
          by_cases hp : p ∈ (dictLookup v st.video_index).getD []
          · exact hcurP x (by simpa [hp] using hx)
          · simp only [if_neg hp, List.mem_append, List.mem_singleton] at hx
            rcases hx with hx | rfl
            · exact hcurP x hx
            · exact hP
        · exact h _ hmem x hx
  | heartbeat p now =>
      unfold applyRequest update_heartbeat
      rcases hl : dictLookup p st.peer_registry with _ | hp
      · simpa [hl] using h
      · simpa [hl] using h
  | sweep now => exact indexSubset_foldl_remove h

theorem indexSubset_foldl_requests {P : String → Prop} :
    ∀ (rs : List Request) (st : TrackerState),
      (∀ e ∈ st.video_index, ∀ x ∈ e.2, P x) →
      (∀ p v, Request.announce p v ∈ rs → P p) →
      ∀ e ∈ (rs.foldl applyRequest st).video_index, ∀ x ∈ e.2, P x := by
  intro rs
  induction rs with
  | nil => intro st h _; simpa using h
  | cons r rest ih =>
      intro st h hann
      rw [List.foldl_cons]
      refine ih _ ?_ ?_
      · exact indexSubset_applyRequest h r
          (fun p v hr => hann p v (by simp [hr]))
      · exact fun p v hmem => hann p v (List.mem_cons_of_mem _ hmem)

theorem mem_announcedIds_of_announce {p v : String} {rs : List Request}
    (h : Request.announce p v ∈ rs) : p ∈ announcedIds rs :=
  List.mem_filterMap.mpr ⟨Request.announce p v, h, rfl⟩

/-! ## Claim theorems: tracker -/

/-- Claim C2, counterexample: from the empty state, a single
ANNOUNCE_VIDEO for a never-registered peer_id puts that id into a video
index entry although no REGISTER for it occurred anywhere in the sequence
(`_announce_video` does not check registration). -/
theorem C2_counterexample :
    "p1" ∈ ((dictLookup "v1"
        (runRequests [Request.announce "p1" "v1"]).video_index).getD []) ∧
    registeredIds [Request.announce "p1" "v1"] = [] := by decide

/-- Claim C2 (amended): in every tracker state reachable by REGISTER,
UNREGISTER, ANNOUNCE_VIDEO, HEARTBEAT and sweep steps from the empty
state, every peer_id in any video index entry's peer set appeared as the
peer_id of some earlier ANNOUNCE_VIDEO request of the sequence (not
necessarily of a REGISTER: announce does not require registration). -/
theorem C2_index_ids_announced (rs : List Request) :
    ∀ e ∈ (runRequests rs).video_index, ∀ x ∈ e.2, x ∈ announcedIds rs := by
  refine indexSubset_foldl_requests rs initState ?_ ?_
  · intro e he
    simp [initState] at he
  · exact fun p v h => mem_announcedIds_of_announce h

theorem C2_index_ids_announced_witness :
    ("v1", ["p1"]) ∈ (runRequests [Request.announce "p1" "v1"]).video_index ∧
    "p1" ∈ announcedIds [Request.announce "p1" "v1"] :=
  ⟨by decide,
   C2_index_ids_announced [Request.announce "p1" "v1"] ("v1", ["p1"])
     (by decide) "p1" (by decide)⟩

/-- Claim C3: in any reachable state, after removing a registered peer by
UNREGISTER, or removing peer `p` as part of a timeout sweep, no video
index entry's peer list still contains that peer_id and no entry with an
empty peer list remains. -/
theorem C3_removed_peer_pruned (rs : List Request) (p : String) (now : Nat) :
    (dictContains p (runRequests rs).peer_registry = true →
      ∀ e ∈ (unregister_peer (runRequests rs) p).1.video_index,
        p ∉ e.2 ∧ e.2 ≠ []) ∧
    (p ∈ inactivePeers (runRequests rs) now →
      ∀ e ∈ (cleanup_inactive_peers (runRequests rs) now).video_index,
        p ∉ e.2 ∧ e.2 ≠ []) := by
  have hwf := indexWF_runRequests rs
  constructor
  · intro hreg e he
    simp only [unregister_peer, if_pos hreg, remove_peer_full] at he
    exact not_mem_pruneIndex_self hwf e he
  · intro hin e he
    exact removed_after_foldl_remove hwf hin e he

theorem C3_removed_peer_pruned_witness :
    dictContains "a"
      (runRequests [Request.register "a" "h" 1 0,
        Request.announce "a" "v"]).peer_registry = true ∧
    (∀ e ∈ (unregister_peer
        (runRequests [Request.register "a" "h" 1 0,
          Request.announce "a" "v"]) "a").1.video_index,
      "a" ∉ e.2 ∧ e.2 ≠ []) ∧
    "a" ∈ inactivePeers
      (runRequests [Request.register "a" "h" 1 0,
        Request.announce "a" "v"]) 1000 ∧
    (∀ e ∈ (cleanup_inactive_peers
        (runRequests [Request.register "a" "h" 1 0,
          Request.announce "a" "v"]) 1000).video_index,
      "a" ∉ e.2 ∧ e.2 ≠ []) :=
  ⟨by decide,
   (C3_removed_peer_pruned [Request.register "a" "h" 1 0,
      Request.announce "a" "v"] "a" 1000).1 (by decide),
   by decide,
   (C3_removed_peer_pruned [Request.register "a" "h" 1 0,
      Request.announce "a" "v"] "a" 1000).2 (by decide)⟩

/-- Claim C4: re-registering an already-registered peer_id (with genuine,
non-falsy host/port, which the handler's validity check requires) replaces
host, port and last_seen in place: registry keys and size unchanged, and
the success response's peer_count equals — hence does not exceed — the
registry size before the request. -/
theorem C4_reregister_in_place (st : TrackerState) (p h : String)
    (q now : Nat) (hreg : dictContains p st.peer_registry = true)
    (hp : p ≠ "") (hh : h ≠ "") (hq : q ≠ 0) :
    dictKeys (register_peer st p h q now).1.peer_registry
      = dictKeys st.peer_registry ∧
    (register_peer st p h q now).1.peer_registry.length
      = st.peer_registry.length ∧
    dictLookup p (register_peer st p h q now).1.peer_registry
      = some (h, q, now) ∧
    (register_peer st p h q now).2
      = RegResp.success "Peer registered successfully"
          st.peer_registry.length ∧
    (∀ m c, (register_peer st p h q now).2 = RegResp.success m c →
      c ≤ st.peer_registry.length) := by
  have hbad : ¬(p = "" ∨ h = "" ∨ q = 0) := by simp [hp, hh, hq]
  simp only [register_peer, if_neg hbad]
  refine ⟨dictKeys_dictInsert_of_contains hreg _,
    length_dictInsert_of_contains hreg _,
    dictLookup_dictInsert_self p _ _, ?_, ?_⟩
  · rw [length_dictInsert_of_contains hreg]
  · intro m c hc
    injection hc with hm hcnt
    rw [← hcnt, length_dictInsert_of_contains hreg]

theorem C4_reregister_in_place_witness :
    dictContains "a"
      (TrackerState.mk [("a", ("h", 5, 0))] []).peer_registry = true ∧
    ("a" : String) ≠ "" ∧ ("g" : String) ≠ "" ∧ (7 : Nat) ≠ 0 ∧
    (dictKeys (register_peer (TrackerState.mk [("a", ("h", 5, 0))] [])
        "a" "g" 7 2).1.peer_registry
      = dictKeys (TrackerState.mk [("a", ("h", 5, 0))] []).peer_registry ∧
     (register_peer (TrackerState.mk [("a", ("h", 5, 0))] [])
        "a" "g" 7 2).1.peer_registry.length
      = (TrackerState.mk [("a", ("h", 5, 0))] []).peer_registry.length ∧
     dictLookup "a" (register_peer (TrackerState.mk [("a", ("h", 5, 0))] [])
        "a" "g" 7 2).1.peer_registry = some ("g", 7, 2) ∧
     (register_peer (TrackerState.mk [("a", ("h", 5, 0))] [])
        "a" "g" 7 2).2
      = RegResp.success "Peer registered successfully"
          (TrackerState.mk [("a", ("h", 5, 0))] []).peer_registry.length ∧
     (∀ m c, (register_peer (TrackerState.mk [("a", ("h", 5, 0))] [])
        "a" "g" 7 2).2 = RegResp.success m c →
       c ≤ (TrackerState.mk [("a", ("h", 5, 0))] []).peer_registry.length)) :=
  ⟨by decide, by decide, by decide, by decide,
   C4_reregister_in_place (TrackerState.mk [("a", ("h", 5, 0))] [])
     "a" "g" 7 2 (by decide) (by decide) (by decide) (by decide)⟩

/-- Claim C5: when peer `p` is registered with host `h` and port `q` (with
non-falsy `p` and `v`, which the announce handler's validity check
requires), ANNOUNCE_VIDEO(p, v) followed by FIND_VIDEO(v) yields a peer
list containing `{peer_id: p, host: h, port: q}` resolved from the live
registry, and no entry for any peer_id indexed under `v` but absent from
the registry at query time. -/
theorem C5_announce_then_find (st : TrackerState) (p h v : String)
    (q t : Nat) (hp : p ≠ "") (hv : v ≠ "")
    (hreg : dictLookup p st.peer_registry = some (h, q, t)) :
    PeerEntry.mk p h q ∈
      (find_video (announce_video st p v).1 v).peers ∧
    (∀ pid, dictLookup pid (announce_video st p v).1.peer_registry = none →
      ∀ e ∈ (find_video (announce_video st p v).1 v).peers,
        e.peer_id ≠ pid) := by
  have hbad : ¬(p = "" ∨ v = "") := by simp [hp, hv]
  have hregeq : (announce_video st p v).1.peer_registry
      = st.peer_registry := by
    simp [announce_video, if_neg hbad]
  have hidx : dictLookup v (announce_video st p v).1.video_index
      = some (if p ∈ (dictLookup v st.video_index).getD []
          then (dictLookup v st.video_index).getD []
          else (dictLookup v st.video_index).getD [] ++ [p]) := by
    simp only [announce_video, if_neg hbad]
    exact dictLookup_dictInsert_self v _ _
  have hpmem : p ∈ (dictLookup v
      (announce_video st p v).1.video_index).getD [] := by
    rw [hidx]
    by_cases hc : p ∈ (dictLookup v st.video_index).getD [] <;> simp [hc]
  constructor
  · simp only [find_video]
    apply List.mem_filterMap.mpr
    refine ⟨p, hpmem, ?_⟩
    rw [hregeq, hreg]
    rfl
  · intro pid hpid e he
    simp only [find_video] at he
    rcases List.mem_filterMap.mp he with ⟨a, _, hfa⟩
    rcases Option.map_eq_some'.mp hfa with ⟨b, hb, hgb⟩
    intro heq
    rw [← hgb] at heq
    simp only [PeerEntry.mk.injEq] at heq
    rw [heq] at hb
    rw [hpid] at hb
    cases hb

theorem C5_announce_then_find_witness :
    ("a" : String) ≠ "" ∧ ("v" : String) ≠ "" ∧
    dictLookup "a" (TrackerState.mk [("a", ("h", 5, 0))] []).peer_registry
      = some ("h", 5, 0) ∧
    (PeerEntry.mk "a" "h" 5 ∈
      (find_video (announce_video
        (TrackerState.mk [("a", ("h", 5, 0))] []) "a" "v").1 "v").peers ∧
     (∀ pid, dictLookup pid (announce_video
          (TrackerState.mk [("a", ("h", 5, 0))] [])
          "a" "v").1.peer_registry = none →
        ∀ e ∈ (find_video (announce_video
            (TrackerState.mk [("a", ("h", 5, 0))] []) "a" "v").1 "v").peers,
          e.peer_id ≠ pid)) :=
  ⟨by decide, by decide, by decide,
   C5_announce_then_find (TrackerState.mk [("a", ("h", 5, 0))] [])
     "a" "h" "v" 5 0 (by decide) (by decide) (by decide)⟩

/-- Claim C6: a HEARTBEAT for a registered peer answers success, updates
only that peer's last_seen (host and port kept, every other registry
entry and the whole video index unchanged); for an unknown peer_id it
answers an explicit error and leaves the state entirely unchanged. -/
theorem C6_heartbeat_frame (st : TrackerState) (p : String) (now : Nat) :
    (∀ h q t, dictLookup p st.peer_registry = some (h, q, t) →
      (update_heartbeat st p now).2 = HbResp.success ∧
      dictLookup p (update_heartbeat st p now).1.peer_registry
        = some (h, q, now) ∧
      (∀ p', p' ≠ p →
        dictLookup p' (update_heartbeat st p now).1.peer_registry
          = dictLookup p' st.peer_registry) ∧
      (update_heartbeat st p now).1.video_index = st.video_index) ∧
    (dictLookup p st.peer_registry = none →
      (update_heartbeat st p now).2 = HbResp.error "Peer not registered" ∧
      (update_heartbeat st p now).1 = st) := by
  constructor
  · intro h q t hl
    refine ⟨?_, ?_, ?_, ?_⟩
    · simp [update_heartbeat, hl]
    · simp only [update_heartbeat, hl]
      exact dictLookup_dictInsert_self p _ _
    · intro p' hne
      simp only [update_heartbeat, hl]
      exact dictLookup_dictInsert_ne hne _ _
    · simp [update_heartbeat, hl]
  · intro hl
    refine ⟨?_, ?_⟩ <;> simp [update_heartbeat, hl]

theorem C6_heartbeat_frame_witness :
    dictLookup "a" (TrackerState.mk [("a", ("h", 5, 0)), ("b", ("g", 6, 1))]
        [("v", ["a"])]).peer_registry = some ("h", 5, 0) ∧
    ((update_heartbeat (TrackerState.mk
        [("a", ("h", 5, 0)), ("b", ("g", 6, 1))] [("v", ["a"])]) "a" 9).2
      = HbResp.success ∧
     dictLookup "a" (update_heartbeat (TrackerState.mk
        [("a", ("h", 5, 0)), ("b", ("g", 6, 1))] [("v", ["a"])])
        "a" 9).1.peer_registry = some ("h", 5, 9) ∧
     (∀ p', p' ≠ "a" →
       dictLookup p' (update_heartbeat (TrackerState.mk
          [("a", ("h", 5, 0)), ("b", ("g", 6, 1))] [("v", ["a"])])
          "a" 9).1.peer_registry
        = dictLookup p' (TrackerState.mk
          [("a", ("h", 5, 0)), ("b", ("g", 6, 1))]
          [("v", ["a"])]).peer_registry) ∧
     (update_heartbeat (TrackerState.mk
        [("a", ("h", 5, 0)), ("b", ("g", 6, 1))] [("v", ["a"])])
        "a" 9).1.video_index
      = (TrackerState.mk [("a", ("h", 5, 0)), ("b", ("g", 6, 1))]
          [("v", ["a"])]).video_index) ∧
    dictLookup "c" (TrackerState.mk [("a", ("h", 5, 0))] []).peer_registry
      = none ∧
    ((update_heartbeat (TrackerState.mk [("a", ("h", 5, 0))] []) "c" 9).2
      = HbResp.error "Peer not registered" ∧
     (update_heartbeat (TrackerState.mk [("a", ("h", 5, 0))] []) "c" 9).1
      = TrackerState.mk [("a", ("h", 5, 0))] []) :=
  ⟨by decide,
   (C6_heartbeat_frame (TrackerState.mk
      [("a", ("h", 5, 0)), ("b", ("g", 6, 1))] [("v", ["a"])]) "a" 9).1
     "h" 5 0 (by decide),
   by decide,
   (C6_heartbeat_frame (TrackerState.mk [("a", ("h", 5, 0))] []) "c" 9).2
     (by decide)⟩

/-- Claim C10: an UNREGISTER request for a peer_id not in the registry
still answers status success and leaves the registry and the video index
exactly unchanged. -/
theorem C10_unregister_unknown_noop (st : TrackerState) (p : String)
    (h : dictContains p st.peer_registry = false) :
    unregister_peer st p = (st, SimpleResp.success "Peer unregistered") := by
  simp [unregister_peer, h]

theorem C10_unregister_unknown_noop_witness :
    dictContains "b" (TrackerState.mk [("a", ("h", 5, 0))]
        [("v", ["a"])]).peer_registry = false ∧
    unregister_peer (TrackerState.mk [("a", ("h", 5, 0))] [("v", ["a"])]) "b"
      = (TrackerState.mk [("a", ("h", 5, 0))] [("v", ["a"])],
         SimpleResp.success "Peer unregistered") :=
  ⟨by decide,
   C10_unregister_unknown_noop
     (TrackerState.mk [("a", ("h", 5, 0))] [("v", ["a"])]) "b" (by decide)⟩

/-! ## Claim theorems: peer -/

/-- Claim C1, counterexample: a download whose success header declares
size 10 but whose stream closes after 3 bytes still returns True
(`download_video` breaks out of the receive loop and falls through to the
success path without comparing `received` with `file_size`). -/
theorem C1_counterexample :
    (download_video [] "v1" (DownloadHeader.success 10 "n")
        [[1, 2, 3]] 0 "sp").1 = true ∧
    (download_video [] "v1" (DownloadHeader.success 10 "n")
        [[1, 2, 3]] 0 "sp").2.1.length < 10 := by decide

/-- Claim C1 (amended): when the header response has status success and
declares size S but the byte stream ends before S bytes are received,
`download_video` reports SUCCESS (returns True), writing the truncated
bytes to the destination and recording a library entry with the declared
size; truncation is silently accepted, not reported as failure. -/
theorem C1_truncated_download_reports_success
    (library : List (String × VideoInfo))
    (video_id name save_path : String) (size now : Nat)
    (chunks : List (List Nat))
    (_trunc : (recv_loop chunks size 0).length < size) :
    (download_video library video_id (DownloadHeader.success size name)
        chunks now save_path).1 = true ∧
    (download_video library video_id (DownloadHeader.success size name)
        chunks now save_path).2.1 = recv_loop chunks size 0 ∧
    dictLookup video_id (download_video library video_id
        (DownloadHeader.success size name) chunks now save_path).2.2
      = some ⟨video_id, name, "", size, save_path, now⟩ := by
  refine ⟨rfl, rfl, ?_⟩
  simp only [download_video]
  exact dictLookup_dictInsert_self _ _ _

theorem C1_truncated_download_reports_success_witness :
    (recv_loop [[1, 2, 3]] 10 0).length < 10 ∧
    ((download_video [] "v1" (DownloadHeader.success 10 "n")
        [[1, 2, 3]] 0 "sp").1 = true ∧
     (download_video [] "v1" (DownloadHeader.success 10 "n")
        [[1, 2, 3]] 0 "sp").2.1 = recv_loop [[1, 2, 3]] 10 0 ∧
     dictLookup "v1" (download_video [] "v1"
        (DownloadHeader.success 10 "n") [[1, 2, 3]] 0 "sp").2.2
      = some ⟨"v1", "n", "", 10, "sp", 0⟩) :=
  ⟨by decide,
   C1_truncated_download_reports_success [] "v1" "n" "sp" 10 0
     [[1, 2, 3]] (by decide)⟩

/-- Claim C8: a DOWNLOAD_VIDEO exchange for an id absent from the serving
peer's library makes the server answer not_found streaming no bytes, and
the requesting `download_video` returns False with zero bytes written and
its library unchanged. -/
theorem C8_download_not_found
    (lib_server lib_client : List (String × VideoInfo))
    (video_id save_path : String) (fileBytes : List Nat) (now : Nat)
    (h : dictLookup video_id lib_server = none) :
    send_video_file lib_server video_id fileBytes
      = (DownloadHeader.notFound, []) ∧
    download_video lib_client video_id
        (send_video_file lib_server video_id fileBytes).1 [] now save_path
      = (false, [], lib_client) := by
  have h1 : send_video_file lib_server video_id fileBytes
      = (DownloadHeader.notFound, []) := by
    simp [send_video_file, h]
  refine ⟨h1, ?_⟩
  rw [h1]
  rfl

theorem C8_download_not_found_witness :
    dictLookup "v2" [("w", VideoInfo.mk "w" "n" "" 5 "p" 0)] = none ∧
    (send_video_file [("w", VideoInfo.mk "w" "n" "" 5 "p" 0)] "v2" [9, 9]
      = (DownloadHeader.notFound, []) ∧
     download_video [] "v2"
        (send_video_file [("w", VideoInfo.mk "w" "n" "" 5 "p" 0)]
          "v2" [9, 9]).1 [] 0 "sp"
      = (false, [], [])) :=
  ⟨by decide,
   C8_download_not_found [("w", VideoInfo.mk "w" "n" "" 5 "p" 0)] []
     "v2" "sp" [9, 9] 0 (by decide)⟩

/-- A network oracle answering every LIST_VIDEOS query with a successful
but empty video list. -/
def emptySuccessNet : String × Nat → ListOutcome :=
  fun _ => ListOutcome.response "success" []

/-- Claim C9, counterexample: a known peer whose LIST_VIDEOS query does
NOT error (it answers success with an empty list) is nevertheless omitted
from `get_all_network_videos` because of the `if videos:` truthiness
check, so the mapping's entries are not exactly the non-erroring peers. -/
theorem C9_counterexample :
    emptySuccessNet ("h", 1) ≠ ListOutcome.failure ∧
    request_video_list (emptySuccessNet ("h", 1)) = [] ∧
    get_all_network_videos [("h", 1)] emptySuccessNet = [] := by decide

/-- Membership in the accumulator-threaded loop of
`get_all_network_videos`. -/
theorem mem_get_all_network_videos_go
    {net : String × Nat → ListOutcome} {addr : String × Nat}
    {vs : List VideoSummary} :
    ∀ (known : List (String × Nat))
      (acc : List ((String × Nat) × List VideoSummary)),
      (∀ a v, (a, v) ∈ acc → v = request_video_list (net a) ∧ v ≠ []) →
      ((addr, vs) ∈ known.foldl (network_videos_step net) acc ↔
        ((addr, vs) ∈ acc ∨
          (addr ∈ known ∧ vs = request_video_list (net addr) ∧ vs ≠ []))) := by
  intro known
  induction known with
  | nil =>
      intro acc hacc
      simp
  | cons a rest ih =>
      intro acc hacc
      rw [List.foldl_cons]
      by_cases hv : request_video_list (net a) = []
      · have hstep : network_videos_step net acc a = acc := by
          simp [network_videos_step, hv]
        rw [hstep, ih acc hacc]
        constructor
        · rintro (hm | ⟨hmem, hP⟩)
          · exact Or.inl hm
          · exact Or.inr ⟨List.mem_cons_of_mem _ hmem, hP⟩
        · rintro (hm | ⟨hmem, hP⟩)
          · exact Or.inl hm
          · rcases List.mem_cons.mp hmem with rfl | hmem'
            · exact absurd (hP.1 ▸ hv) hP.2
            · exact Or.inr ⟨hmem', hP⟩
      · have hstep : network_videos_step net acc a
            = dictInsert a (request_video_list (net a)) acc := by
          simp [network_videos_step, hv]
        rw [hstep]
        have hacc' : ∀ a' v',
            (a', v') ∈ dictInsert a (request_video_list (net a)) acc →
            v' = request_video_list (net a') ∧ v' ≠ [] := by
          intro a' v' hm
          rcases mem_of_mem_dictInsert hm with ⟨rfl, rfl⟩ | hm'
          · exact ⟨rfl, hv⟩
          · exact hacc a' v' hm'
        rw [ih _ hacc']
        have hins : (addr, vs) ∈
            dictInsert a (request_video_list (net a)) acc ↔
            ((addr = a ∧ vs = request_video_list (net a)) ∨
              (addr, vs) ∈ acc) := by
          constructor
          · intro hm
            exact mem_of_mem_dictInsert hm
          · rintro (⟨rfl, rfl⟩ | hm)
            · exact mem_dictInsert_self _ _ _
            · by_cases hne : addr = a
              · subst hne
                rcases hacc _ _ hm with ⟨rfl, _⟩
                exact mem_dictInsert_self _ _ _
              · exact mem_dictInsert_of_ne hne hm
        rw [hins]
        constructor
        · rintro ((⟨rfl, rfl⟩ | hm) | ⟨hmem, hP⟩)
          · exact Or.inr ⟨List.mem_cons_self _ _, rfl, hv⟩
          · exact Or.inl hm
          · exact Or.inr ⟨List.mem_cons_of_mem _ hmem, hP⟩
        · rintro (hm | ⟨hmem, hP⟩)
          · exact Or.inl (Or.inr hm)
          · rcases List.mem_cons.mp hmem with rfl | hmem'
            · exact Or.inl (Or.inl ⟨rfl, hP.1⟩)
            · exact Or.inr ⟨hmem', hP⟩

/-- Claim C9 (amended): `get_all_network_videos` returns a mapping whose
entries are exactly the known peer addresses whose `request_video_list`
result was NON-EMPTY, each mapped to that list; peers whose query errors
are omitted (their list is empty), but so is any peer that successfully
returns an empty video list. -/
theorem C9_network_videos_nonempty_only (known : List (String × Nat))
    (net : String × Nat → ListOutcome) (addr : String × Nat)
    (vs : List VideoSummary) :
    (addr, vs) ∈ get_all_network_videos known net ↔
      (addr ∈ known ∧ vs = request_video_list (net addr) ∧ vs ≠ []) := by
  have hgo := @mem_get_all_network_videos_go net addr vs known []
    (by intro a v h; cases h)
  simp only [get_all_network_videos]
  rw [hgo]
  simp

/-- A network oracle answering every LIST_VIDEOS query with one video. -/
def oneVideoNet : String × Nat → ListOutcome :=
  fun _ => ListOutcome.response "success" [VideoSummary.mk "i" "n" "d" 3]

theorem C9_network_videos_nonempty_only_witness :
    (("h", 1), [VideoSummary.mk "i" "n" "d" 3]) ∈
      get_all_network_videos [("h", 1)] oneVideoNet :=
  (C9_network_videos_nonempty_only [("h", 1)] oneVideoNet ("h", 1)
      [VideoSummary.mk "i" "n" "d" 3]).mpr
    ⟨by decide, by decide, by decide⟩

/-! ## Claim theorems: video id (C7)

Two RFC 1321 test vectors pin down the MD5 model, and a published
single-block MD5 collision pair settles the distinctness half of the
claim. -/

theorem md5hex_rfc_vector_empty :
    md5hex [] = "d41d8cd98f00b204e9800998ecf8427e" := by decide

theorem md5hex_rfc_vector_abc :
    md5hex [97, 98, 99] = "900150983cd24fb0d6963f7d28e17f72" := by decide

/-- First message of a published single-block MD5 collision pair
(M. Stevens, 2012): 64 bytes. -/
def md5CollideA : List Nat :=
  [77, 201, 104, 255, 14, 227, 92, 32, 149, 114, 212, 119, 123, 114, 21,
   135, 211, 111, 167, 178, 27, 220, 86, 183, 74, 61, 192, 120, 62, 123,
   149, 24, 175, 191, 162, 0, 168, 40, 75, 243, 110, 142, 75, 85, 179, 95,
   66, 117, 147, 216, 73, 103, 109, 160, 209, 85, 93, 131, 96, 251, 95, 7,
   254, 162]

/-- Second message of the collision pair: differs from the first at byte
offsets 35 and 55 only, same length, same MD5 digest. -/
def md5CollideB : List Nat :=
  [77, 201, 104, 255, 14, 227, 92, 32, 149, 114, 212, 119, 123, 114, 21,
   135, 211, 111, 167, 178, 27, 220, 86, 183, 74, 61, 192, 120, 62, 123,
   149, 24, 175, 191, 162, 2, 168, 40, 75, 243, 110, 142, 75, 85, 179, 95,
   66, 117, 147, 216, 73, 103, 109, 160, 209, 213, 93, 131, 96, 251, 95, 7,
   254, 162]

/-- Claim C7, counterexample: two distinct files of identical total
length that differ within the first 1 MiB (at byte offsets 35 and 55) yet
have EQUAL computed video_id values, because MD5 collides on them; so
differing leading content does not guarantee distinct ids. -/
theorem C7_counterexample :
    md5CollideA ≠ md5CollideB ∧
    md5CollideA.length = md5CollideB.length ∧
    md5CollideA.take (1024 * 1024) ≠ md5CollideB.take (1024 * 1024) ∧
    generate_video_id md5CollideA = generate_video_id md5CollideB := by
  refine ⟨by decide, by decide, by decide, by decide⟩

/-- Claim C7 (amended): the video_id is a fixed-length digest of only the
first 1 MiB of the file, so files with identical leading 1 MiB always get
equal ids; files differing within the first 1 MiB USUALLY get different
ids but not always (MD5 collisions exist, see the counterexample). -/
theorem C7_video_id_prefix_determined (f1 f2 : List Nat)
    (h : f1.take (1024 * 1024) = f2.take (1024 * 1024)) :
    generate_video_id f1 = generate_video_id f2 := by
  unfold generate_video_id
  rw [h]

theorem C7_video_id_prefix_determined_witness :
    ([5, 6] : List Nat).take (1024 * 1024)
      = ([5, 6] : List Nat).take (1024 * 1024) ∧
    generate_video_id [5, 6] = generate_video_id [5, 6] :=
  ⟨rfl, C7_video_id_prefix_determined [5, 6] [5, 6] rfl⟩

end P2P
